import Mathlib

/-
Verification of the bomb-cdn upload/delete pipeline (src/main.rs, src/models.rs).

The two axum handlers `post_upload` and `delete_file` are embedded as pure
functions over an explicit filesystem state.  Filesystem calls whose outcome
depends on the outside world (`fs::create_dir_all`, `fs::write`,
`fs::remove_file` failing for a reason other than the file being absent) are
parametrised by explicit outcome oracles; the random filename generator is
parametrised by its stream of samples.  Strings are Lean `String`s, byte
payloads are `List Nat`.
-/

namespace BombCdn

/-- Constant `CDN_URL` from main.rs. -/
def CDN_URL : String := "https://cdn.tomthebomb.dev"

/-- Constant `MAX_FILE_SIZE` from main.rs (30_000_000 bytes). -/
def MAX_FILE_SIZE : Nat := 30000000

/-- The 62-character set sampled by rand's `Alphanumeric` distribution. -/
def ALPHANUMERIC_CHARSET : List Char :=
  "ABCDEFGHIJKLMNOPQRSTUVWXYZabcdefghijklmnopqrstuvwxyz0123456789".data

/-- One uniform sample of rand's `Alphanumeric`, fed by a raw random number. -/
def sampleAlphanumeric (n : Nat) : Char :=
  ALPHANUMERIC_CHARSET.getD (n % 62) 'A'

/-- Embedding of `generate_filename` from main.rs: ten alphanumeric samples
drawn from the random stream `rng`. -/
def generate_filename (rng : Nat → Nat) : String :=
  String.mk ((List.range 10).map (fun i => sampleAlphanumeric (rng i)))

/-- Rust's `str::trim_matches(c)`: removes every leading and trailing
occurrence of the character `c`. -/
def trimMatchesChar (c : Char) (s : String) : String :=
  String.mk (((s.data.dropWhile (· == c)).reverse.dropWhile (· == c)).reverse)

/-- Fuel-driven loop of Rust's `str::trim_start_matches(pat)`: repeatedly
strips the pattern `pat` while it is present at the front.  Fuel equal to the
length of the subject string always suffices, because each successful strip
removes at least one character (and with an empty pattern Rust also leaves the
subject unchanged). -/
def trimStartAuxFuel : Nat → List Char → List Char → List Char
  | 0, _, s => s
  | n + 1, pat, s =>
    if pat.isPrefixOf s then trimStartAuxFuel n pat (s.drop pat.length) else s

/-- Rust's `str::trim_start_matches(pat)` on strings. -/
def trimStartMatchesStr (pat s : String) : String :=
  String.mk (trimStartAuxFuel s.data.length pat.data s.data)

/-- The upload path composed by `post_upload` (main.rs lines 65-71):
`format!("./uploads/{}/{}", directory.unwrap_or_default().trim_matches('/'), filename)`. -/
def resolve_upload_path (directory : Option String) (filename : String) : String :=
  "./uploads/" ++ trimMatchesChar '/' (directory.getD "") ++ "/" ++ filename

/-- The delete path composed by `delete_file` (main.rs lines 144-147):
`format!("./uploads/{}", path.trim_matches('/'))`. -/
def resolve_delete_path (p : String) : String :=
  "./uploads/" ++ trimMatchesChar '/' p

/-- Rust's `Path::parent` on the path strings this program builds: strip
trailing separators, drop the final component, strip separators again.
Returns `none` when nothing is left (root or empty path). -/
def parentOf (s : String) : Option String :=
  let r := s.data.reverse.dropWhile (· == '/')
  if r.isEmpty then Option.none
  else some (String.mk (((r.dropWhile (· != '/')).dropWhile (· == '/')).reverse))

/-- Filesystem state: the contents of regular files and the set of existing
directories, both keyed by path string. -/
structure Fs where
  files : String → Option (List Nat)
  dirs : String → Bool

/-- Whether `q` names `p` itself or one of its ancestors (so that
`create_dir_all p` makes `q` exist). -/
def isAncestorOrSelf (q p : String) : Bool :=
  q == p || (q ++ "/").data.isPrefixOf p.data

/-- Effect of `fs::create_dir_all p` on the directory set: `p` and all of its
ancestors now exist. -/
def mkdirAll (dirs : String → Bool) (p : String) : String → Bool :=
  fun q => if isAncestorOrSelf q p then true else dirs q

/-- Effect of `fs::write p b` on the file map. -/
def writeFile (files : String → Option (List Nat)) (p : String) (b : List Nat) :
    String → Option (List Nat) :=
  fun q => if q == p then some b else files q

/-- Effect of a successful `fs::remove_file p` on the file map. -/
def removeFileMap (files : String → Option (List Nat)) (p : String) :
    String → Option (List Nat) :=
  fun q => if q == p then Option.none else files q

/-- The first multipart field, as `post_upload` consumes it: its optional
declared filename and the result of reading its bytes (`none` models
`field.bytes()` returning `Err`). -/
structure MultipartField where
  file_name : Option String
  bytes : Option (List Nat)
deriving DecidableEq

/-- The `UploadResponse` JSON structure from models.rs. -/
structure UploadResponse where
  full_url : String
  filename : String
  path : String
deriving DecidableEq

/-- Outcome of `post_upload`: an error response (status, plain-text body) or a
success response (status, JSON `UploadResponse`). -/
inductive UploadResult where
  | err (status : Nat) (body : String)
  | ok (status : Nat) (resp : UploadResponse)
deriving DecidableEq

/-- Oracle for the outcome of `fs::create_dir_all`. -/
inductive MkdirRes where
  | ok
  | errAlreadyExists
  | errOther
deriving DecidableEq

/-- Outcome of `delete_file`: an error response or a success response whose
message is serialized as `{"message": <message>}`. -/
inductive DeleteResult where
  | err (status : Nat) (body : String)
  | ok (status : Nat) (message : String)
deriving DecidableEq

/-- Embedding of the `post_upload` handler (main.rs lines 46-131).
`env_auth` is `env::var("auth")`, `bearer` the presented bearer token,
`field` the first multipart field (`none` models both `Err` and `Ok(None)` of
`multipart.next_field()`), `rng` feeds `generate_filename`, `mkdir` and
`writeOk` are the outcomes of the two fallible filesystem calls, and `fs` is
the filesystem state.  Returns the response together with the new state. -/
def post_upload (env_auth : Option String) (bearer : String)
    (directory : Option String) (field : Option MultipartField)
    (rng : Nat → Nat) (mkdir : MkdirRes) (writeOk : Bool) (fs : Fs) :
    UploadResult × Fs :=
  match env_auth with
  | Option.none => (UploadResult.err 500 "Failed to get auth token from env", fs)
  | some auth_token =>
    if bearer ≠ auth_token then
      (UploadResult.err 401 "Incorrect authorization token", fs)
    else
      match field with
      | Option.none =>
        (UploadResult.err 400 "Missing image field in the multipart form", fs)
      | some f =>
        let filename := f.file_name.getD (generate_filename rng)
        let path := resolve_upload_path directory filename
        let dirStep : Sum UploadResult Fs :=
          match parentOf path, mkdir with
          | some parent, MkdirRes.ok =>
            Sum.inr { fs with dirs := mkdirAll fs.dirs parent }
          | some _, MkdirRes.errAlreadyExists => Sum.inr fs
          | some _, MkdirRes.errOther =>
            Sum.inl (UploadResult.err 500 "Creating the directory failed")
          | Option.none, _ => Sum.inr fs
        match dirStep with
        | Sum.inl e => (e, fs)
        | Sum.inr fs1 =>
          match f.bytes with
          | Option.none => (UploadResult.err 400 "Improper bytes sent", fs1)
          | some bs =>
            if bs.length > MAX_FILE_SIZE then
              (UploadResult.err 413
                ("uploaded files cannot exceed the limit of "
                  ++ toString MAX_FILE_SIZE ++ " bytes"), fs1)
            else if writeOk then
              let path_string := trimStartMatchesStr "./uploads" path
              (UploadResult.ok 200
                { full_url := CDN_URL ++ path_string
                  filename := filename
                  path := path_string },
                { fs1 with files := writeFile fs1.files path bs })
            else
              (UploadResult.err 500 "Writing to file system failed", fs1)

/-- Embedding of the `delete_file` handler (main.rs lines 133-176).
`removeFault` injects a `fs::remove_file` failure whose kind is not
`NotFound` (permissions, I/O error, the path being a directory, ...). -/
def delete_file (env_auth : Option String) (bearer : String) (p0 : String)
    (removeFault : Bool) (fs : Fs) : DeleteResult × Fs :=
  match env_auth with
  | Option.none => (DeleteResult.err 500 "Failed to get auth token from env", fs)
  | some auth_token =>
    if bearer ≠ auth_token then
      (DeleteResult.err 401 "Incorrect authorization token", fs)
    else
      let path := resolve_delete_path p0
      if removeFault then
        (DeleteResult.err 500 "Something went wrong when deleting the file", fs)
      else
        match fs.files path with
        | Option.none =>
          (DeleteResult.err 404 "The requested file was not found on the CDN", fs)
        | some _ =>
          (DeleteResult.ok 200 "File successfully deleted",
            { fs with files := removeFileMap fs.files path })

/-- Split a character list on `'/'` (empty segments kept). -/
def splitSlashAux : List Char → List Char → List (List Char)
  | [], acc => [acc.reverse]
  | c :: rest, acc =>
    if c == '/' then acc.reverse :: splitSlashAux rest []
    else splitSlashAux rest (c :: acc)

/-- Segments of a path string, split on `'/'`. -/
def splitSlash (s : List Char) : List (List Char) :=
  splitSlashAux s []

/-- Resolve the meaning of path segments: empty and `.` segments are skipped,
`..` pops the last kept segment (`none` when it would climb above the start),
anything else is kept.  This is the location a path denotes on a POSIX
filesystem. -/
def normSegments : List (List Char) → List (List Char) → Option (List (List Char))
  | [], acc => some acc.reverse
  | seg :: rest, acc =>
    if seg == ([] : List Char) || seg == ['.'] then normSegments rest acc
    else if seg == ['.', '.'] then
      match acc with
      | [] => Option.none
      | _ :: acc2 => normSegments rest acc2
    else normSegments rest (seg :: acc)

/-- The normalized component list a relative path string denotes, or `none`
when the path climbs above the working directory. -/
def normalizePath (s : String) : Option (List String) :=
  (normSegments (splitSlash s.data) []).map (fun l => l.map String.mk)

/-- Whether the location denoted by `s` (relative to the working directory)
lies inside the `uploads` root. -/
def underUploadsB (s : String) : Bool :=
  match normalizePath s with
  | some (u :: _) => u == "uploads"
  | _ => false

/-- Empty filesystem: no files, no directories. -/
def emptyFs : Fs where
  files := fun _ => Option.none
  dirs := fun _ => false

/-- Filesystem holding a single one-byte file at `./uploads/a`. -/
def sampleFs : Fs where
  files := fun q => if q == "./uploads/a" then some [1] else Option.none
  dirs := fun _ => false

theorem string_data_append (a b : String) : (a ++ b).data = a.data ++ b.data :=
  String.data_append a b

theorem string_eq_of_data (a b : String) (h : a.data = b.data) : a = b :=
  String.ext h

theorem isPrefixOf_self_append (l t : List Char) : l.isPrefixOf (l ++ t) = true := by
  induction l with
  | nil => simp [List.isPrefixOf]
  | cons a as ih => simp [List.isPrefixOf, ih]

theorem trimStartAuxFuel_step (n : Nat) (pat t : List Char) :
    trimStartAuxFuel (n + 1) pat (pat ++ t) = trimStartAuxFuel n pat t := by
  simp [trimStartAuxFuel, isPrefixOf_self_append, List.drop_left]

theorem trimStartAuxFuel_slash (n : Nat) (t : List Char) :
    trimStartAuxFuel n ("./uploads".data) ('/' :: t) = '/' :: t := by
  cases n with
  | zero => rfl
  | succ m =>
    have h : (("./uploads".data).isPrefixOf ('/' :: t)) = false := rfl
    simp [trimStartAuxFuel, h]

theorem trimStart_uploads_main (t : List Char) :
    trimStartMatchesStr "./uploads" (String.mk ("./uploads".data ++ '/' :: t))
      = String.mk ('/' :: t) := by
  show String.mk (trimStartAuxFuel ("./uploads".data ++ '/' :: t).length
      ("./uploads".data) ("./uploads".data ++ '/' :: t)) = String.mk ('/' :: t)
  have h9 : ("./uploads".data).length = 9 := rfl
  have hlen : ("./uploads".data ++ '/' :: t).length = (t.length + 9) + 1 := by
    simp [List.length_append, h9]
  rw [hlen, trimStartAuxFuel_step, trimStartAuxFuel_slash]

theorem resolve_upload_path_data (d : Option String) (fn : String) :
    (resolve_upload_path d fn).data
      = "./uploads".data
          ++ '/' :: ((trimMatchesChar '/' (d.getD "")).data ++ '/' :: fn.data) := by
  show ("./uploads/" ++ trimMatchesChar '/' (d.getD "") ++ "/" ++ fn).data = _
  rw [string_data_append, string_data_append, string_data_append]
  have h1 : ("./uploads/".data : List Char) = "./uploads".data ++ ['/'] := rfl
  have h2 : ("/".data : List Char) = ['/'] := rfl
  rw [h1, h2]
  simp [List.append_assoc]

theorem upload_path_string_eq (d : Option String) (fn : String) :
    trimStartMatchesStr "./uploads" (resolve_upload_path d fn)
      = String.mk ('/' :: ((trimMatchesChar '/' (d.getD "")).data ++ '/' :: fn.data)) := by
  have h : resolve_upload_path d fn
      = String.mk ("./uploads".data
          ++ '/' :: ((trimMatchesChar '/' (d.getD "")).data ++ '/' :: fn.data)) :=
    string_eq_of_data _ _ (resolve_upload_path_data d fn)
  rw [h, trimStart_uploads_main]

theorem dropWhile_head_ne (p : Char → Bool) (l : List Char) :
    ∀ a, (l.dropWhile p).head? = some a → p a = false := by
  induction l with
  | nil => intro a h; simp at h
  | cons c rest ih =>
    intro a h
    cases hpc : p c with
    | true => rw [List.dropWhile_cons_of_pos hpc] at h; exact ih a h
    | false =>
      rw [List.dropWhile_cons_of_neg (by simp [hpc])] at h
      simp at h
      rw [← h, hpc]

theorem dropWhile_eq_self_of_head (p : Char → Bool) (l : List Char)
    (h : ∀ a, l.head? = some a → p a = false) : l.dropWhile p = l := by
  cases l with
  | nil => rfl
  | cons c rest =>
    have hc : p c = false := h c rfl
    exact List.dropWhile_cons_of_neg (by simp [hc])

theorem dropWhile_getLast_eq (p : Char → Bool) (l : List Char)
    (h : l.dropWhile p ≠ []) : (l.dropWhile p).getLast? = l.getLast? := by
  induction l with
  | nil => simp at h
  | cons c rest ih =>
    cases hpc : p c with
    | true =>
      rw [List.dropWhile_cons_of_pos hpc] at h ⊢
      cases rest with
      | nil => simp at h
      | cons y ys => rw [ih h, List.getLast?_cons_cons]
    | false =>
      rw [List.dropWhile_cons_of_neg (by simp [hpc])]

theorem takeWhile_beq_replicate (c : Char) (l : List Char) :
    ∃ a, l.takeWhile (· == c) = List.replicate a c := by
  induction l with
  | nil => exact ⟨0, rfl⟩
  | cons x rest ih =>
    cases hx : (x == c) with
    | true =>
      obtain ⟨a, ha⟩ := ih
      refine ⟨a + 1, ?_⟩
      rw [List.takeWhile_cons_of_pos (by simp [hx]), ha]
      have hxc : x = c := by simpa [beq_iff_eq] using hx
      rw [hxc, List.replicate_succ]
    | false =>
      exact ⟨0, by rw [List.takeWhile_cons_of_neg (by simp [hx])]; rfl⟩

theorem trimMatchesChar_head_ne (c : Char) (s : String) :
    ∀ a, (trimMatchesChar c s).data.head? = some a → a ≠ c := by
  intro a h
  have hd : (trimMatchesChar c s).data
      = ((s.data.dropWhile (· == c)).reverse.dropWhile (· == c)).reverse := rfl
  rw [hd, List.head?_reverse] at h
  have hne : (s.data.dropWhile (· == c)).reverse.dropWhile (· == c) ≠ [] := by
    intro he
    rw [he] at h
    simp at h
  rw [dropWhile_getLast_eq _ _ hne, List.getLast?_reverse] at h
  have hb := dropWhile_head_ne (· == c) s.data a h
  simpa [beq_iff_eq] using hb

theorem trimMatchesChar_getLast_ne (c : Char) (s : String) :
    ∀ a, (trimMatchesChar c s).data.getLast? = some a → a ≠ c := by
  intro a h
  have hd : (trimMatchesChar c s).data
      = ((s.data.dropWhile (· == c)).reverse.dropWhile (· == c)).reverse := rfl
  rw [hd, List.getLast?_reverse] at h
  have hb := dropWhile_head_ne (· == c) _ a h
  simpa [beq_iff_eq] using hb

theorem trimMatchesChar_idem (c : Char) (s : String) :
    trimMatchesChar c (trimMatchesChar c s) = trimMatchesChar c s := by
  apply string_eq_of_data
  show (((trimMatchesChar c s).data.dropWhile (· == c)).reverse.dropWhile (· == c)).reverse
      = (trimMatchesChar c s).data
  have h1 : (trimMatchesChar c s).data.dropWhile (· == c) = (trimMatchesChar c s).data := by
    apply dropWhile_eq_self_of_head
    intro a ha
    have := trimMatchesChar_head_ne c s a ha
    simpa [beq_iff_eq] using this
  rw [h1]
  have h2 : (trimMatchesChar c s).data.reverse.dropWhile (· == c)
      = (trimMatchesChar c s).data.reverse := by
    apply dropWhile_eq_self_of_head
    intro a ha
    rw [List.head?_reverse] at ha
    have := trimMatchesChar_getLast_ne c s a ha
    simpa [beq_iff_eq] using this
  rw [h2, List.reverse_reverse]

theorem trimMatchesChar_decomp (c : Char) (s : String) :
    ∃ a b, s.data
      = List.replicate a c ++ (trimMatchesChar c s).data ++ List.replicate b c := by
  obtain ⟨a, ha⟩ := takeWhile_beq_replicate c s.data
  obtain ⟨b, hb⟩ := takeWhile_beq_replicate c (s.data.dropWhile (· == c)).reverse
  refine ⟨a, b, ?_⟩
  have hs := List.takeWhile_append_dropWhile (· == c) s.data
  have hu := List.takeWhile_append_dropWhile (· == c) (s.data.dropWhile (· == c)).reverse
  have htrim : (trimMatchesChar c s).data.reverse
      = ((s.data.dropWhile (· == c)).reverse).dropWhile (· == c) := by
    show ((((s.data.dropWhile (· == c)).reverse.dropWhile (· == c)).reverse).reverse) = _
    rw [List.reverse_reverse]
  have hu2 : (s.data.dropWhile (· == c)).reverse
      = List.replicate b c ++ (trimMatchesChar c s).data.reverse := by
    rw [htrim, ← hb]
    exact hu.symm
  have hu3 : s.data.dropWhile (· == c)
      = (trimMatchesChar c s).data ++ List.replicate b c := by
    have hrev := congrArg List.reverse hu2
    simpa [List.reverse_append, List.reverse_replicate, List.reverse_reverse] using hrev
  calc s.data = s.data.takeWhile (· == c) ++ s.data.dropWhile (· == c) := hs.symm
    _ = List.replicate a c ++ ((trimMatchesChar c s).data ++ List.replicate b c) := by
        rw [ha, hu3]
    _ = List.replicate a c ++ (trimMatchesChar c s).data ++ List.replicate b c := by
        rw [List.append_assoc]

theorem splitSlashAux_no_slash (l : List Char) :
    ∀ acc, ('/' : Char) ∉ l → splitSlashAux l acc = [acc.reverse ++ l] := by
  induction l with
  | nil => intro acc h; simp [splitSlashAux]
  | cons c rest ih =>
    intro acc h
    have hc : (c == '/') = false := by
      have hne : c ≠ '/' := fun he => h (he ▸ List.mem_cons_self c rest)
      simpa [beq_iff_eq] using hne
    have hr : ('/' : Char) ∉ rest := fun hm => h (List.mem_cons_of_mem _ hm)
    simp [splitSlashAux, hc, ih (c :: acc) hr, List.reverse_cons, List.append_assoc]

theorem normalizePath_upload_no_dir (fn : String)
    (h1 : ('/' : Char) ∉ fn.data) (h2 : fn ≠ "") (h3 : fn ≠ ".") (h4 : fn ≠ "..") :
    normalizePath (resolve_upload_path Option.none fn) = some ["uploads", fn] := by
  have ht : (trimMatchesChar '/' ((Option.none : Option String).getD "")).data
      = ([] : List Char) := rfl
  have hdata : (resolve_upload_path Option.none fn).data
      = "./uploads".data ++ '/' :: (([] : List Char) ++ '/' :: fn.data) := by
    rw [resolve_upload_path_data, ht]
  have hsplit : splitSlash ((resolve_upload_path Option.none fn).data)
      = ['.'] :: "uploads".data :: ([] : List Char) :: splitSlashAux fn.data [] := by
    rw [show splitSlash ((resolve_upload_path Option.none fn).data)
        = splitSlashAux ((resolve_upload_path Option.none fn).data) [] from rfl, hdata]
    rfl
  have hfd : (fn.data == ([] : List Char)) = false := by
    have hne : fn.data ≠ ([] : List Char) := by
      intro he
      exact h2 (string_eq_of_data fn "" he)
    simpa [beq_iff_eq] using hne
  have hdot : (fn.data == ['.']) = false := by
    have hne : fn.data ≠ ['.'] := by
      intro he
      exact h3 (string_eq_of_data fn "." he)
    simpa [beq_iff_eq] using hne
  have hdotdot : (fn.data == ['.', '.']) = false := by
    have hne : fn.data ≠ ['.', '.'] := by
      intro he
      exact h4 (string_eq_of_data fn ".." he)
    simpa [beq_iff_eq] using hne
  rw [normalizePath, hsplit, splitSlashAux_no_slash fn.data [] h1]
  simp only [List.reverse_nil, List.nil_append]
  show (normSegments ("uploads".data :: ([] : List Char) :: [fn.data]) []).map
      (fun l => l.map String.mk) = some ["uploads", fn]
  rw [show normSegments ("uploads".data :: ([] : List Char) :: [fn.data]) []
      = normSegments [fn.data] ["uploads".data] from rfl]
  rw [show normSegments [fn.data] ["uploads".data]
      = if fn.data == ([] : List Char) || fn.data == ['.']
        then normSegments [] ["uploads".data]
        else if fn.data == ['.', '.'] then normSegments [] []
        else normSegments [] (fn.data :: ["uploads".data]) from rfl]
  rw [hfd, hdot, hdotdot]
  rfl

theorem post_upload_success (secret : String) (d : Option String) (f : MultipartField)
    (rng : Nat → Nat) (mk : MkdirRes) (fs : Fs) (bs : List Nat)
    (hmk : mk ≠ MkdirRes.errOther)
    (hb : f.bytes = some bs) (hlen : ¬ bs.length > MAX_FILE_SIZE) :
    (post_upload (some secret) secret d (some f) rng mk true fs).1
      = UploadResult.ok 200
          { full_url := CDN_URL ++ trimStartMatchesStr "./uploads"
              (resolve_upload_path d (f.file_name.getD (generate_filename rng)))
            filename := f.file_name.getD (generate_filename rng)
            path := trimStartMatchesStr "./uploads"
              (resolve_upload_path d (f.file_name.getD (generate_filename rng))) } := by
  cases hpar : parentOf (resolve_upload_path d (f.file_name.getD (generate_filename rng))) with
  | none =>
    cases mk with
    | ok => simp [post_upload, hpar, hb, hlen]
    | errAlreadyExists => simp [post_upload, hpar, hb, hlen]
    | errOther => exact absurd rfl hmk
  | some parent =>
    cases mk with
    | ok => simp [post_upload, hpar, hb, hlen]
    | errAlreadyExists => simp [post_upload, hpar, hb, hlen]
    | errOther => exact absurd rfl hmk

theorem post_upload_token_ok_ne (secret : String) (d : Option String)
    (field : Option MultipartField) (rng : Nat → Nat) (mk : MkdirRes) (w : Bool) (fs : Fs) :
    (post_upload (some secret) secret d field rng mk w fs).1
        ≠ UploadResult.err 401 "Incorrect authorization token"
    ∧ (post_upload (some secret) secret d field rng mk w fs).1
        ≠ UploadResult.err 500 "Failed to get auth token from env" := by
  cases field with
  | none => exact ⟨by simp [post_upload], by simp [post_upload]⟩
  | some f =>
    cases hpar : parentOf (resolve_upload_path d (f.file_name.getD (generate_filename rng))) with
    | none =>
      rcases hbb : f.bytes with _ | bs
      · cases mk <;>
          exact ⟨by simp [post_upload, hpar, hbb], by simp [post_upload, hpar, hbb]⟩
      · by_cases hl : bs.length > MAX_FILE_SIZE
        · cases mk <;> cases w <;>
            exact ⟨by simp [post_upload, hpar, hbb, hl], by simp [post_upload, hpar, hbb, hl]⟩
        · cases mk <;> cases w <;>
            exact ⟨by simp [post_upload, hpar, hbb, hl], by simp [post_upload, hpar, hbb, hl]⟩
    | some parent =>
      rcases hbb : f.bytes with _ | bs
      · cases mk <;>
          exact ⟨by simp [post_upload, hpar, hbb], by simp [post_upload, hpar, hbb]⟩
      · by_cases hl : bs.length > MAX_FILE_SIZE
        · cases mk <;> cases w <;>
            exact ⟨by simp [post_upload, hpar, hbb, hl], by simp [post_upload, hpar, hbb, hl]⟩
        · cases mk <;> cases w <;>
            exact ⟨by simp [post_upload, hpar, hbb, hl], by simp [post_upload, hpar, hbb, hl]⟩

theorem delete_token_ok_ne (secret : String) (p0 : String) (fault : Bool) (fs : Fs) :
    (delete_file (some secret) secret p0 fault fs).1
        ≠ DeleteResult.err 401 "Incorrect authorization token"
    ∧ (delete_file (some secret) secret p0 fault fs).1
        ≠ DeleteResult.err 500 "Failed to get auth token from env" := by
  cases fault with
  | true => exact ⟨by simp [delete_file], by simp [delete_file]⟩
  | false =>
    cases hf : fs.files (resolve_delete_path p0) with
    | none => exact ⟨by simp [delete_file, hf], by simp [delete_file, hf]⟩
    | some b => exact ⟨by simp [delete_file, hf], by simp [delete_file, hf]⟩


/-- C1: the upload path resolver composes `root/directory/filename` keeping `..`
segments verbatim, so an input containing `..` denotes a location outside the
upload root; the delete handler's path parameter behaves the same way, and the
upload handler writes through such a path without rejecting it. -/
theorem c1_upload_path_allows_traversal :
    resolve_upload_path (some "..") "x" = "./uploads/../x"
    ∧ underUploadsB (resolve_upload_path (some "..") "x") = false
    ∧ normalizePath (resolve_upload_path (some "..") "x") = some ["x"]
    ∧ underUploadsB (resolve_upload_path (some "pics") "x.png") = true
    ∧ resolve_delete_path "../x" = "./uploads/../x"
    ∧ underUploadsB (resolve_delete_path "../x") = false
    ∧ (post_upload (some "s") "s" (some "..") (some ⟨some "x", some [7]⟩)
        (fun _ => 0) MkdirRes.ok true emptyFs).1
      = UploadResult.ok 200
          { full_url := "https://cdn.tomthebomb.dev/../x"
            filename := "x"
            path := "/../x" }
    ∧ (post_upload (some "s") "s" (some "..") (some ⟨some "x", some [7]⟩)
        (fun _ => 0) MkdirRes.ok true emptyFs).2.files "./uploads/../x" = some [7] := by
  decide

/-- C2: authorization is decided first and in order: a missing `auth` secret
yields 500 "Failed to get auth token from env" whatever the token; with the
secret configured, a token that is not string-equal to it yields 401
"Incorrect authorization token" (state untouched in both cases); with a
matching token neither auth error is ever produced, for both handlers. -/
theorem c2_auth_decided_first (secret bearer : String) (h : bearer ≠ secret)
    (d : Option String) (field : Option MultipartField) (rng : Nat → Nat)
    (mk : MkdirRes) (w : Bool) (fs : Fs) (p0 : String) (fault : Bool) :
    post_upload Option.none bearer d field rng mk w fs
        = (UploadResult.err 500 "Failed to get auth token from env", fs)
    ∧ delete_file Option.none bearer p0 fault fs
        = (DeleteResult.err 500 "Failed to get auth token from env", fs)
    ∧ post_upload (some secret) bearer d field rng mk w fs
        = (UploadResult.err 401 "Incorrect authorization token", fs)
    ∧ delete_file (some secret) bearer p0 fault fs
        = (DeleteResult.err 401 "Incorrect authorization token", fs)
    ∧ (post_upload (some secret) secret d field rng mk w fs).1
        ≠ UploadResult.err 401 "Incorrect authorization token"
    ∧ (post_upload (some secret) secret d field rng mk w fs).1
        ≠ UploadResult.err 500 "Failed to get auth token from env"
    ∧ (delete_file (some secret) secret p0 fault fs).1
        ≠ DeleteResult.err 401 "Incorrect authorization token"
    ∧ (delete_file (some secret) secret p0 fault fs).1
        ≠ DeleteResult.err 500 "Failed to get auth token from env" := by
  obtain ⟨hu1, hu2⟩ := post_upload_token_ok_ne secret d field rng mk w fs
  obtain ⟨hd1, hd2⟩ := delete_token_ok_ne secret p0 fault fs
  exact ⟨rfl, rfl, by simp [post_upload, h], by simp [delete_file, h], hu1, hu2, hd1, hd2⟩

theorem c2_auth_decided_first_witness :
    post_upload Option.none "wrong" Option.none Option.none (fun _ => 0)
        MkdirRes.ok true emptyFs
        = (UploadResult.err 500 "Failed to get auth token from env", emptyFs)
    ∧ delete_file Option.none "wrong" "a" false emptyFs
        = (DeleteResult.err 500 "Failed to get auth token from env", emptyFs)
    ∧ post_upload (some "secret") "wrong" Option.none Option.none (fun _ => 0)
        MkdirRes.ok true emptyFs
        = (UploadResult.err 401 "Incorrect authorization token", emptyFs)
    ∧ delete_file (some "secret") "wrong" "a" false emptyFs
        = (DeleteResult.err 401 "Incorrect authorization token", emptyFs)
    ∧ (post_upload (some "secret") "secret" Option.none Option.none (fun _ => 0)
        MkdirRes.ok true emptyFs).1
        ≠ UploadResult.err 401 "Incorrect authorization token"
    ∧ (post_upload (some "secret") "secret" Option.none Option.none (fun _ => 0)
        MkdirRes.ok true emptyFs).1
        ≠ UploadResult.err 500 "Failed to get auth token from env"
    ∧ (delete_file (some "secret") "secret" "a" false emptyFs).1
        ≠ DeleteResult.err 401 "Incorrect authorization token"
    ∧ (delete_file (some "secret") "secret" "a" false emptyFs).1
        ≠ DeleteResult.err 500 "Failed to get auth token from env" :=
  c2_auth_decided_first "secret" "wrong" (by decide) Option.none Option.none
    (fun _ => 0) MkdirRes.ok true emptyFs "a" false


/-- C3: an authorized upload whose body exceeds 30,000,000 bytes yields HTTP 413
with a message stating the byte limit, and the file map is left untouched (no
write to the resolved path occurs). -/
theorem c3_upload_too_large_no_write (secret : String) (d : Option String)
    (f : MultipartField) (rng : Nat → Nat) (mk : MkdirRes) (w : Bool) (fs : Fs)
    (bs : List Nat) (hmk : mk ≠ MkdirRes.errOther) (hb : f.bytes = some bs)
    (hlen : bs.length > MAX_FILE_SIZE) :
    (post_upload (some secret) secret d (some f) rng mk w fs).1
      = UploadResult.err 413 "uploaded files cannot exceed the limit of 30000000 bytes"
    ∧ (post_upload (some secret) secret d (some f) rng mk w fs).2.files = fs.files := by
  have hm : "uploaded files cannot exceed the limit of "
      ++ toString MAX_FILE_SIZE ++ " bytes"
      = "uploaded files cannot exceed the limit of 30000000 bytes" := rfl
  cases hpar : parentOf (resolve_upload_path d (f.file_name.getD (generate_filename rng))) with
  | none =>
    cases mk with
    | ok =>
      exact ⟨by simp [post_upload, hpar, hb, hlen, hm], by simp [post_upload, hpar, hb, hlen]⟩
    | errAlreadyExists =>
      exact ⟨by simp [post_upload, hpar, hb, hlen, hm], by simp [post_upload, hpar, hb, hlen]⟩
    | errOther => exact absurd rfl hmk
  | some parent =>
    cases mk with
    | ok =>
      exact ⟨by simp [post_upload, hpar, hb, hlen, hm], by simp [post_upload, hpar, hb, hlen]⟩
    | errAlreadyExists =>
      exact ⟨by simp [post_upload, hpar, hb, hlen, hm], by simp [post_upload, hpar, hb, hlen]⟩
    | errOther => exact absurd rfl hmk

theorem c3_upload_too_large_no_write_witness :
    (post_upload (some "s") "s" (some "pics")
        (some ⟨some "big.bin", some (List.replicate 30000001 0)⟩)
        (fun _ => 0) MkdirRes.ok true emptyFs).1
      = UploadResult.err 413 "uploaded files cannot exceed the limit of 30000000 bytes"
    ∧ (post_upload (some "s") "s" (some "pics")
        (some ⟨some "big.bin", some (List.replicate 30000001 0)⟩)
        (fun _ => 0) MkdirRes.ok true emptyFs).2.files = emptyFs.files :=
  c3_upload_too_large_no_write "s" (some "pics")
    ⟨some "big.bin", some (List.replicate 30000001 0)⟩ (fun _ => 0) MkdirRes.ok true
    emptyFs (List.replicate 30000001 0) (by decide) rfl
    (by rw [List.length_replicate]; decide)

/-- C4: the upload directory is normalized by trimming all leading and trailing
slash characters (the trimmed form has no slash at either edge and differs from
the original only by edge slashes, and trimming first changes nothing), and an
absent directory is the same as an empty one and stores the file directly under
the upload root. -/
theorem c4_directory_trimming (dir fn : String)
    (h1 : ('/' : Char) ∉ fn.data) (h2 : fn ≠ "") (h3 : fn ≠ ".") (h4 : fn ≠ "..") :
    resolve_upload_path (some dir) fn
      = resolve_upload_path (some (trimMatchesChar '/' dir)) fn
    ∧ (∃ a b, dir.data = List.replicate a '/'
        ++ (trimMatchesChar '/' dir).data ++ List.replicate b '/')
    ∧ (∀ x, (trimMatchesChar '/' dir).data.head? = some x → x ≠ '/')
    ∧ (∀ x, (trimMatchesChar '/' dir).data.getLast? = some x → x ≠ '/')
    ∧ resolve_upload_path Option.none fn = resolve_upload_path (some "") fn
    ∧ normalizePath (resolve_upload_path Option.none fn) = some ["uploads", fn] := by
  refine ⟨?_, trimMatchesChar_decomp '/' dir, trimMatchesChar_head_ne '/' dir,
    trimMatchesChar_getLast_ne '/' dir, rfl, normalizePath_upload_no_dir fn h1 h2 h3 h4⟩
  show "./uploads/" ++ trimMatchesChar '/' dir ++ "/" ++ fn
      = "./uploads/" ++ trimMatchesChar '/' (trimMatchesChar '/' dir) ++ "/" ++ fn
  rw [trimMatchesChar_idem]

theorem c4_directory_trimming_witness :
    resolve_upload_path (some "//a/b/") "c.png"
      = resolve_upload_path (some (trimMatchesChar '/' "//a/b/")) "c.png"
    ∧ (∃ a b, ("//a/b/" : String).data = List.replicate a '/'
        ++ (trimMatchesChar '/' "//a/b/").data ++ List.replicate b '/')
    ∧ (∀ x, (trimMatchesChar '/' "//a/b/").data.head? = some x → x ≠ '/')
    ∧ (∀ x, (trimMatchesChar '/' "//a/b/").data.getLast? = some x → x ≠ '/')
    ∧ resolve_upload_path Option.none "c.png" = resolve_upload_path (some "") "c.png"
    ∧ normalizePath (resolve_upload_path Option.none "c.png") = some ["uploads", "c.png"] :=
  c4_directory_trimming "//a/b/" "c.png" (by decide) (by decide) (by decide) (by decide)

/-- C5: for an authorized delete, a missing file yields HTTP 404 "The requested
file was not found on the CDN", any other removal failure yields HTTP 500
"Something went wrong when deleting the file", and a successful removal yields
HTTP 200 with message "File successfully deleted" and removes the file. -/
theorem c5_delete_outcomes (t p0 : String) (fs : Fs) :
    (fs.files (resolve_delete_path p0) = Option.none →
      delete_file (some t) t p0 false fs
        = (DeleteResult.err 404 "The requested file was not found on the CDN", fs))
    ∧ (delete_file (some t) t p0 true fs).1
        = DeleteResult.err 500 "Something went wrong when deleting the file"
    ∧ (∀ bs, fs.files (resolve_delete_path p0) = some bs →
        delete_file (some t) t p0 false fs
          = (DeleteResult.ok 200 "File successfully deleted",
              { fs with files := removeFileMap fs.files (resolve_delete_path p0) })) := by
  refine ⟨?_, by simp [delete_file], ?_⟩
  · intro h
    simp [delete_file, h]
  · intro bs h
    simp [delete_file, h]

theorem c5_delete_outcomes_witness :
    delete_file (some "s") "s" "a" false sampleFs
      = (DeleteResult.ok 200 "File successfully deleted",
          { sampleFs with files := removeFileMap sampleFs.files (resolve_delete_path "a") })
    ∧ delete_file (some "s") "s" "missing" false sampleFs
      = (DeleteResult.err 404 "The requested file was not found on the CDN", sampleFs) :=
  ⟨(c5_delete_outcomes "s" "a" sampleFs).2.2 [1] (by decide),
    (c5_delete_outcomes "s" "missing" sampleFs).1 (by decide)⟩

/-- C6: an upload or delete request whose bearer token differs from the secret
returns HTTP 401 and leaves the filesystem state completely unchanged. -/
theorem c6_unauthorized_leaves_fs_unchanged (secret bearer : String)
    (h : bearer ≠ secret) (d : Option String) (field : Option MultipartField)
    (rng : Nat → Nat) (mk : MkdirRes) (w : Bool) (p0 : String) (fault : Bool) (fs : Fs) :
    post_upload (some secret) bearer d field rng mk w fs
      = (UploadResult.err 401 "Incorrect authorization token", fs)
    ∧ delete_file (some secret) bearer p0 fault fs
      = (DeleteResult.err 401 "Incorrect authorization token", fs) :=
  ⟨by simp [post_upload, h], by simp [delete_file, h]⟩

theorem c6_unauthorized_leaves_fs_unchanged_witness :
    post_upload (some "secret") "bad" (some "pics") (some ⟨some "a.png", some [1]⟩)
        (fun _ => 0) MkdirRes.ok true sampleFs
      = (UploadResult.err 401 "Incorrect authorization token", sampleFs)
    ∧ delete_file (some "secret") "bad" "a" false sampleFs
      = (DeleteResult.err 401 "Incorrect authorization token", sampleFs) :=
  c6_unauthorized_leaves_fs_unchanged "secret" "bad" (by decide) (some "pics")
    (some ⟨some "a.png", some [1]⟩) (fun _ => 0) MkdirRes.ok true "a" false sampleFs


/-- C7: a successful upload's `path` is a suffix of its `full_url`; `full_url`
is the CDN base URL concatenated with `path`, and `path` is the resolved
filesystem path with its leading "./uploads" stripped. -/
theorem c7_response_path_suffix_of_url (secret : String) (d : Option String)
    (f : MultipartField) (rng : Nat → Nat) (mk : MkdirRes) (fs : Fs) (bs : List Nat)
    (hmk : mk ≠ MkdirRes.errOther) (hb : f.bytes = some bs)
    (hlen : ¬ bs.length > MAX_FILE_SIZE) :
    ∃ r : UploadResponse,
      (post_upload (some secret) secret d (some f) rng mk true fs).1
        = UploadResult.ok 200 r
      ∧ r.full_url = CDN_URL ++ r.path
      ∧ r.path = trimStartMatchesStr "./uploads"
          (resolve_upload_path d (f.file_name.getD (generate_filename rng)))
      ∧ List.IsSuffix r.path.data r.full_url.data := by
  refine ⟨_, post_upload_success secret d f rng mk fs bs hmk hb hlen, rfl, rfl, ?_⟩
  exact ⟨CDN_URL.data, (string_data_append _ _).symm⟩

theorem c7_response_path_suffix_of_url_witness :
    ∃ r : UploadResponse,
      (post_upload (some "s") "s" (some "pics") (some ⟨some "a.png", some [1, 2]⟩)
          (fun _ => 0) MkdirRes.ok true emptyFs).1
        = UploadResult.ok 200 r
      ∧ r.full_url = CDN_URL ++ r.path
      ∧ r.path = trimStartMatchesStr "./uploads"
          (resolve_upload_path (some "pics")
            ((⟨some "a.png", some [1, 2]⟩ : MultipartField).file_name.getD
              (generate_filename (fun _ => 0))))
      ∧ List.IsSuffix r.path.data r.full_url.data :=
  c7_response_path_suffix_of_url "s" (some "pics") ⟨some "a.png", some [1, 2]⟩
    (fun _ => 0) MkdirRes.ok emptyFs [1, 2] (by decide) rfl (by decide)

/-- C9: an authorized upload whose directory is absent or trims to the empty
string produces the path string "./uploads//<filename>", so the response's
`path` field begins with "//" and `full_url` has a double slash immediately
after the CDN base URL. -/
theorem c9_empty_directory_double_slash (secret : String) (d : Option String)
    (f : MultipartField) (rng : Nat → Nat) (mk : MkdirRes) (fs : Fs) (bs : List Nat)
    (hd : trimMatchesChar '/' (d.getD "") = "")
    (hmk : mk ≠ MkdirRes.errOther) (hb : f.bytes = some bs)
    (hlen : ¬ bs.length > MAX_FILE_SIZE) :
    resolve_upload_path d (f.file_name.getD (generate_filename rng))
      = "./uploads//" ++ (f.file_name.getD (generate_filename rng))
    ∧ ∃ r : UploadResponse,
      (post_upload (some secret) secret d (some f) rng mk true fs).1
        = UploadResult.ok 200 r
      ∧ r.path = "//" ++ (f.file_name.getD (generate_filename rng))
      ∧ r.full_url = CDN_URL ++ ("//" ++ (f.file_name.getD (generate_filename rng)))
      ∧ r.path.data.take 2 = ['/', '/'] := by
  have hps : trimStartMatchesStr "./uploads"
      (resolve_upload_path d (f.file_name.getD (generate_filename rng)))
      = "//" ++ (f.file_name.getD (generate_filename rng)) := by
    rw [upload_path_string_eq, hd]
    rfl
  constructor
  · apply string_eq_of_data
    rw [resolve_upload_path_data, hd]
    rw [string_data_append]
    rfl
  refine ⟨_, post_upload_success secret d f rng mk fs bs hmk hb hlen, hps, ?_, ?_⟩
  · rw [hps]
  · rw [hps, string_data_append]
    rfl

theorem c9_empty_directory_double_slash_witness :
    resolve_upload_path Option.none
        ((⟨some "pic.png", some [5]⟩ : MultipartField).file_name.getD
          (generate_filename (fun _ => 0)))
      = "./uploads//"
        ++ ((⟨some "pic.png", some [5]⟩ : MultipartField).file_name.getD
          (generate_filename (fun _ => 0)))
    ∧ ∃ r : UploadResponse,
      (post_upload (some "s") "s" Option.none (some ⟨some "pic.png", some [5]⟩)
          (fun _ => 0) MkdirRes.ok true emptyFs).1
        = UploadResult.ok 200 r
      ∧ r.path = "//"
          ++ ((⟨some "pic.png", some [5]⟩ : MultipartField).file_name.getD
            (generate_filename (fun _ => 0)))
      ∧ r.full_url = CDN_URL ++ ("//"
          ++ ((⟨some "pic.png", some [5]⟩ : MultipartField).file_name.getD
            (generate_filename (fun _ => 0))))
      ∧ r.path.data.take 2 = ['/', '/'] :=
  c9_empty_directory_double_slash "s" Option.none ⟨some "pic.png", some [5]⟩
    (fun _ => 0) MkdirRes.ok emptyFs [5] rfl (by decide) rfl (by decide)

/-- C10: an authorized upload that passes field extraction and directory
provisioning but then fails with 400 (improper bytes), 413 (too large) or 500
(write failure) leaves the directories created by the provisioning step on the
filesystem: no compensating cleanup is performed. -/
theorem c10_failed_upload_keeps_created_dirs (secret : String) (d : Option String)
    (f : MultipartField) (rng : Nat → Nat) (w : Bool) (fs : Fs) (parent : String)
    (hp : parentOf (resolve_upload_path d (f.file_name.getD (generate_filename rng)))
      = some parent) :
    (f.bytes = Option.none →
      post_upload (some secret) secret d (some f) rng MkdirRes.ok w fs
        = (UploadResult.err 400 "Improper bytes sent",
            { fs with dirs := mkdirAll fs.dirs parent }))
    ∧ (∀ bs, f.bytes = some bs → bs.length > MAX_FILE_SIZE →
        post_upload (some secret) secret d (some f) rng MkdirRes.ok w fs
          = (UploadResult.err 413
              "uploaded files cannot exceed the limit of 30000000 bytes",
              { fs with dirs := mkdirAll fs.dirs parent }))
    ∧ (∀ bs, f.bytes = some bs → ¬ bs.length > MAX_FILE_SIZE →
        post_upload (some secret) secret d (some f) rng MkdirRes.ok false fs
          = (UploadResult.err 500 "Writing to file system failed",
              { fs with dirs := mkdirAll fs.dirs parent }))
    ∧ mkdirAll fs.dirs parent parent = true := by
  have hm : "uploaded files cannot exceed the limit of "
      ++ toString MAX_FILE_SIZE ++ " bytes"
      = "uploaded files cannot exceed the limit of 30000000 bytes" := rfl
  refine ⟨?_, ?_, ?_, ?_⟩
  · intro hbb
    simp [post_upload, hp, hbb]
  · intro bs hbb hl
    simp [post_upload, hp, hbb, hl, hm]
  · intro bs hbb hl
    simp [post_upload, hp, hbb, hl]
  · simp [mkdirAll, isAncestorOrSelf]

theorem c10_failed_upload_keeps_created_dirs_witness :
    post_upload (some "s") "s" (some "pics") (some ⟨some "a.png", Option.none⟩)
        (fun _ => 0) MkdirRes.ok true emptyFs
      = (UploadResult.err 400 "Improper bytes sent",
          { emptyFs with dirs := mkdirAll emptyFs.dirs "./uploads/pics" })
    ∧ mkdirAll emptyFs.dirs "./uploads/pics" "./uploads/pics" = true :=
  ⟨(c10_failed_upload_keeps_created_dirs "s" (some "pics") ⟨some "a.png", Option.none⟩
      (fun _ => 0) true emptyFs "./uploads/pics" (by decide)).1 rfl,
    (c10_failed_upload_keeps_created_dirs "s" (some "pics") ⟨some "a.png", Option.none⟩
      (fun _ => 0) true emptyFs "./uploads/pics" (by decide)).2.2.2⟩


/-- C8: deleting the same path twice with a correct token, starting from a
state where the file exists, yields HTTP 200 for the first request and HTTP
404 for the second. -/
theorem c8_delete_twice_200_then_404 (t p0 : String) (fs : Fs) (bs : List Nat)
    (h : fs.files (resolve_delete_path p0) = some bs) :
    (delete_file (some t) t p0 false fs).1
      = DeleteResult.ok 200 "File successfully deleted"
    ∧ (delete_file (some t) t p0 false (delete_file (some t) t p0 false fs).2).1
      = DeleteResult.err 404 "The requested file was not found on the CDN" := by
  have hstep : (delete_file (some t) t p0 false fs).2
      = { fs with files := removeFileMap fs.files (resolve_delete_path p0) } := by
    simp [delete_file, h]
  constructor
  · simp [delete_file, h]
  · rw [hstep]
    have h2 : removeFileMap fs.files (resolve_delete_path p0) (resolve_delete_path p0)
        = Option.none := by
      simp [removeFileMap]
    simp [delete_file, h2]

theorem c8_delete_twice_200_then_404_witness :
    (delete_file (some "s") "s" "a" false sampleFs).1
      = DeleteResult.ok 200 "File successfully deleted"
    ∧ (delete_file (some "s") "s" "a" false
        (delete_file (some "s") "s" "a" false sampleFs).2).1
      = DeleteResult.err 404 "The requested file was not found on the CDN" :=
  c8_delete_twice_200_then_404 "s" "a" sampleFs [1] (by decide)

end BombCdn
